import Mathlib

/-!
Verification of the PoSDK GLOMAP database/model export core.

Shallow embedding of the Python sources under
`src/plugins/methods/GLOMAP/`:
- `load_colmap_db.py` (pair-id codec, blob decoding),
- `export_matches_from_db.py` (pair-id decode, blob decoding, match export),
- `export_camera_poses_from_db.py` (pose resolution, quaternion math, Euler),
- `export_global_poses_from_db.py` (global pose reader/exporter),
- `export_global_poses_from_model.py` (binary/text model readers, qvec2rotmat).

Machine floats are modelled as exact rationals (for selection logic and
file-shape claims) or reals (for the geometric formulas); byte blobs are
lists of naturals; database rows are records of optional fields.
-/

set_option autoImplicit false

namespace PoSDK

/-! ### Pair-ID codec (`load_colmap_db.py`, `export_matches_from_db.py`)

`_image_ids_to_pair_id` swaps the two ids into ascending order and combines
them; it performs no range validation.  `_pair_id_to_image_ids` and the
identical `pair_id_to_image_ids` in `export_matches_from_db.py` invert the
combination by mod / div. -/

def MAX_IMAGE_ID : ℕ := 2 ^ 31 - 1

def image_ids_to_pair_id (image_id1 image_id2 : ℕ) : ℕ :=
  let p := if image_id1 > image_id2 then (image_id2, image_id1) else (image_id1, image_id2)
  p.1 * MAX_IMAGE_ID + p.2

def pair_id_to_image_ids (pair_id : ℕ) : ℕ × ℕ :=
  let image_id2 := pair_id % MAX_IMAGE_ID
  let image_id1 := (pair_id - image_id2) / MAX_IMAGE_ID
  (image_id1, image_id2)

/-! ### Blob decoding (`_blob_to_array` / `blob_to_array`)

`np.frombuffer(blob, dtype).reshape(-1, cols)` reinterprets the raw bytes as
elements of `elementSize` bytes (failing when the byte length is not a
multiple of the element size) and then reshapes into rows of `cols` elements
(failing when the element count is not a multiple of `cols`).  Bytes are
modelled as naturals; both `ValueError` sites map to `DecodeError`. -/

inductive DBError where
  | DecodeError
deriving DecidableEq

/-- Split a list into consecutive chunks of `n` elements (fuel-driven
worker; the fuel is the list length, which bounds the recursion depth). -/
def chunksGo {α : Type} : ℕ → ℕ → List α → List (List α)
  | 0, _, _ => []
  | _ + 1, _, [] => []
  | fuel + 1, n, a :: l => ((a :: l).take n) :: chunksGo fuel n ((a :: l).drop n)

def chunks {α : Type} (n : ℕ) (l : List α) : List (List α) :=
  chunksGo l.length n l

/-- Element sizes of the four stored dtypes: float32 keypoints, uint8
descriptors, uint32 match index pairs, float64 camera intrinsics. -/
def FLOAT32_SIZE : ℕ := 4
def UINT8_SIZE : ℕ := 1
def UINT32_SIZE : ℕ := 4
def FLOAT64_SIZE : ℕ := 8

def blob_to_array (esize cols : ℕ) (blob : List ℕ) :
    Except DBError (List (List (List ℕ))) :=
  if blob.length % esize ≠ 0 then .error .DecodeError
  else
    let elems := chunks esize blob
    if elems.length % cols ≠ 0 then .error .DecodeError
    else .ok (chunks cols elems)

/-! ### Database image rows and pose resolution
(`export_camera_poses_from_db.py`, `export_global_poses_from_db.py`)

An `images` table row carries nullable prior and optimized pose columns;
machine doubles are modelled as exact rationals.  `resolveImageRow` is the
per-row selection logic of `read_camera_poses_from_database` (lines
134-158): the `is_registered` check over the seven optimized fields, the
prior fallback with `prior_t* or 0` defaulting (Python `or 0` maps both
`None` and `0.0` to zero, numerically `Option.getD _ 0`), and the skip. -/

structure ImageRow where
  image_id : ℕ
  name : String
  camera_id : ℕ
  prior_qw : Option ℚ
  prior_qx : Option ℚ
  prior_qy : Option ℚ
  prior_qz : Option ℚ
  prior_tx : Option ℚ
  prior_ty : Option ℚ
  prior_tz : Option ℚ
  qw : Option ℚ
  qx : Option ℚ
  qy : Option ℚ
  qz : Option ℚ
  tx : Option ℚ
  ty : Option ℚ
  tz : Option ℚ
deriving DecidableEq

structure ResolvedPose where
  image_id : ℕ
  image_name : String
  camera_id : ℕ
  is_registered : Bool
  quaternion : ℚ × ℚ × ℚ × ℚ
  translation : ℚ × ℚ × ℚ
deriving DecidableEq

def resolveImageRow (r : ImageRow) : Option ResolvedPose :=
  let is_registered := r.qw.isSome && r.qx.isSome && r.qy.isSome && r.qz.isSome &&
    r.tx.isSome && r.ty.isSome && r.tz.isSome
  if is_registered then
    some { image_id := r.image_id, image_name := r.name, camera_id := r.camera_id,
           is_registered := is_registered,
           quaternion := (r.qw.get!, r.qx.get!, r.qy.get!, r.qz.get!),
           translation := (r.tx.get!, r.ty.get!, r.tz.get!) }
  else if r.prior_qw.isSome && r.prior_qx.isSome && r.prior_qy.isSome && r.prior_qz.isSome then
    some { image_id := r.image_id, image_name := r.name, camera_id := r.camera_id,
           is_registered := false,
           quaternion := (r.prior_qw.get!, r.prior_qx.get!, r.prior_qy.get!, r.prior_qz.get!),
           translation := (r.prior_tx.getD 0, r.prior_ty.getD 0, r.prior_tz.getD 0) }
  else none

/-- Squared Euclidean norm of a resolved quaternion.  The geometry step
(`quaternion_to_rotation_matrix`) divides by the norm; the division raises
`ZeroDivisionError` exactly when this is zero, and the surrounding
`try/except` then skips the record. -/
def quatNormSq (q : ℚ × ℚ × ℚ × ℚ) : ℚ :=
  q.1 * q.1 + q.2.1 * q.2.1 + q.2.2.1 * q.2.2.1 + q.2.2.2 * q.2.2.2

/-- `read_camera_poses_from_database` restricted to the pose records it
returns: per-row resolution followed by the zero-norm (exception) skip. -/
def read_camera_poses_from_database (rows : List ImageRow) : List ResolvedPose :=
  rows.filterMap fun r =>
    (resolveImageRow r).bind fun p =>
      if quatNormSq p.quaternion = 0 then none else some p

/-- A database as seen by `read_global_poses_from_database`: the image rows
plus the results of the `PRAGMA table_info` column probes (`has_prior`,
`has_optimized`). -/
structure GlobalDB where
  hasPriorCols : Bool
  hasOptimizedCols : Bool
  images : List ImageRow

structure GlobalPose where
  image_id : ℕ
  image_name : String
  camera_id : ℕ
  quaternion : ℚ × ℚ × ℚ × ℚ
  translation : ℚ × ℚ × ℚ
deriving DecidableEq

/-- `read_global_poses_from_database`: when the optimized columns exist the
SQL query selects only rows with all seven optimized fields non-null; only
when they do not exist (and prior columns do) are prior rows selected, with
`COALESCE(prior_t*, 0)` defaulting.  The rotation matrix of each pose is
`quaternion_to_rotation_matrix` applied to the stored quaternion (modelled
separately over ℝ); its division raises exactly when the norm is zero, and
that record is then skipped by the `try/except`. -/
def read_global_poses_from_database (db : GlobalDB) : List GlobalPose :=
  if db.hasOptimizedCols then
    db.images.filterMap fun r =>
      match r.qw, r.qx, r.qy, r.qz, r.tx, r.ty, r.tz with
      | some qw, some qx, some qy, some qz, some tx, some ty, some tz =>
        if quatNormSq (qw, qx, qy, qz) = 0 then none
        else some ⟨r.image_id, r.name, r.camera_id, (qw, qx, qy, qz), (tx, ty, tz)⟩
      | _, _, _, _, _, _, _ => none
  else if db.hasPriorCols then
    db.images.filterMap fun r =>
      match r.prior_qw, r.prior_qx, r.prior_qy, r.prior_qz with
      | some qw, some qx, some qy, some qz =>
        if quatNormSq (qw, qx, qy, qz) = 0 then none
        else some ⟨r.image_id, r.name, r.camera_id, (qw, qx, qy, qz),
                   (r.prior_tx.getD 0, r.prior_ty.getD 0, r.prior_tz.getD 0)⟩
      | _, _, _, _ => none
  else []

/-- The `global_pose.txt` output of `export_global_poses_txt`: the first
line is the pose count; each later line renders one pose (name, rotation
matrix column-major at 8 decimals, translation), kept structured here. -/
structure GlobalPoseFile where
  firstLine : String
  poseLines : List GlobalPose
deriving DecidableEq

def export_global_poses_txt (poses : List GlobalPose) : GlobalPoseFile :=
  { firstLine := toString poses.length ++ "\n", poseLines := poses }

/-! ### The synthetic end-to-end store (spec §8)

Two cameras, three images: image 1 fully optimized, image 2 prior-only with
null prior translation, image 3 without pose data; the schema has both the
prior and the optimized columns (§6). -/

def endToEndImage1 : ImageRow :=
  { image_id := 1, name := "img1.jpg", camera_id := 1,
    prior_qw := none, prior_qx := none, prior_qy := none, prior_qz := none,
    prior_tx := none, prior_ty := none, prior_tz := none,
    qw := some 1, qx := some 0, qy := some 0, qz := some 0,
    tx := some 0, ty := some 0, tz := some 0 }

def endToEndImage2 : ImageRow :=
  { image_id := 2, name := "img2.jpg", camera_id := 2,
    prior_qw := some 1, prior_qx := some 0, prior_qy := some 0, prior_qz := some 0,
    prior_tx := none, prior_ty := none, prior_tz := none,
    qw := none, qx := none, qy := none, qz := none,
    tx := none, ty := none, tz := none }

def endToEndImage3 : ImageRow :=
  { image_id := 3, name := "img3.jpg", camera_id := 2,
    prior_qw := none, prior_qx := none, prior_qy := none, prior_qz := none,
    prior_tx := none, prior_ty := none, prior_tz := none,
    qw := none, qx := none, qy := none, qz := none,
    tx := none, ty := none, tz := none }

def endToEndGlobalDB : GlobalDB :=
  { hasPriorCols := true, hasOptimizedCols := true,
    images := [endToEndImage1, endToEndImage2, endToEndImage3] }

/-- A store holding only the prior-only image, with the full schema. -/
def priorOnlyDB : GlobalDB :=
  { hasPriorCols := true, hasOptimizedCols := true, images := [endToEndImage2] }

/-! ### Match reader and exporter (`export_matches_from_db.py`)

`read_database_matches` reads image metadata, per-image keypoints (of which
only the first two columns are used) and the match table (the SQL query
keeps `rows > 0`); binary blobs are modelled by the typed arrays they decode
to (the byte-level decoding is `blob_to_array` above).  An index pair is
kept only when both indices are below the keypoint counts; a pair whose
coordinate list ends up empty produces no record. -/

structure ImageMeta where
  image_id : ℕ
  name : String
  camera_id : ℕ
deriving DecidableEq

structure MatchDB where
  images : List ImageMeta
  keypoints : List (ℕ × List (ℚ × ℚ))
  matches_ : List (ℕ × List (ℕ × ℕ))

structure MatchData where
  image_id1 : ℕ
  image_id2 : ℕ
  camera_id1 : ℕ
  camera_id2 : ℕ
  image_name1 : String
  image_name2 : String
  matches_ : List (ℚ × ℚ × ℚ × ℚ)
deriving DecidableEq

def findImage (imgs : List ImageMeta) (i : ℕ) : Option ImageMeta :=
  imgs.find? fun m => m.image_id == i

def findKeypoints (kps : List (ℕ × List (ℚ × ℚ))) (i : ℕ) : Option (List (ℚ × ℚ)) :=
  (kps.find? fun p => p.1 == i).map (·.2)

/-- The coordinate-collection loop: `if idx1 < len(kpts1) and idx2 <
len(kpts2)` guards the indexing; out-of-range pairs are silently dropped
(`l[i]?` is `some` exactly when `i` is in range). -/
def matchCoords (kpts1 kpts2 : List (ℚ × ℚ)) (ms : List (ℕ × ℕ)) :
    List (ℚ × ℚ × ℚ × ℚ) :=
  ms.filterMap fun m =>
    match kpts1[m.1]?, kpts2[m.2]? with
    | some p1, some p2 => some (p1.1, p1.2, p2.1, p2.2)
    | _, _ => none

/-- One iteration of the match-table loop: skip empty rows (`rows > 0`),
decode the pair id, require both images and both keypoint sets, collect the
in-range coordinates, and keep the record only when at least one survives. -/
def matchRowEntry (imgs : List ImageMeta) (kps : List (ℕ × List (ℚ × ℚ)))
    (pid : ℕ) (ms : List (ℕ × ℕ)) : Option MatchData :=
  if ms.length = 0 then none
  else
    let ids := pair_id_to_image_ids pid
    match findImage imgs ids.1, findImage imgs ids.2,
          findKeypoints kps ids.1, findKeypoints kps ids.2 with
    | some m1, some m2, some k1, some k2 =>
      let coords := matchCoords k1 k2 ms
      if coords.length > 0 then
        some { image_id1 := ids.1, image_id2 := ids.2,
               camera_id1 := m1.camera_id, camera_id2 := m2.camera_id,
               image_name1 := m1.name, image_name2 := m2.name,
               matches_ := coords }
      else none
    | _, _, _, _ => none

def read_database_matches (db : MatchDB) : List MatchData :=
  db.matches_.filterMap fun pm => matchRowEntry db.images db.keypoints pm.1 pm.2

/-- `os.path.splitext(name)[0]` for a bare file name: split at the last dot
unless every character before it is a dot. -/
def splitextStem (name : String) : String :=
  let cs := name.toList
  match cs.reverse.findIdx? (fun c => c == '.') with
  | none => name
  | some k =>
    let sepIndex := cs.length - 1 - k
    if (cs.take sepIndex).any (fun c => c != '.') then String.mk (cs.take sepIndex)
    else name

/-- One exported match file: name built from the two image names with
extensions stripped; first line `camera_id1 camera_id2`; then one line per
coordinate quadruple (each rendered at 6 decimals), kept structured here. -/
structure MatchFile where
  filename : String
  firstLine : String
  coordLines : List (ℚ × ℚ × ℚ × ℚ)
deriving DecidableEq

def export_matches_to_files (data : List MatchData) : List MatchFile :=
  data.map fun m =>
    { filename := "matches_" ++ splitextStem m.image_name1 ++ "_" ++
        splitextStem m.image_name2 ++ ".txt",
      firstLine := toString m.camera_id1 ++ " " ++ toString m.camera_id2,
      coordLines := m.matches_ }

/-- `main` of `export_matches_from_db.py`: read, filter by the configurable
`--min_matches` threshold (source default: 15), export. -/
def matches_export_main (db : MatchDB) (min_matches : ℕ) : List MatchFile :=
  export_matches_to_files
    ((read_database_matches db).filter fun m => min_matches ≤ m.matches_.length)

/-- The match side of the synthetic end-to-end store: one match-table row
between images 1 and 2 holding 5 index pairs, both images having keypoints
covering the indices. -/
def endToEndMatchDB : MatchDB :=
  { images := [⟨1, "img1.jpg", 1⟩, ⟨2, "img2.jpg", 2⟩, ⟨3, "img3.jpg", 2⟩],
    keypoints :=
      [(1, [(10, 20), (30, 40), (50, 60), (70, 80), (90, 100), (110, 120)]),
       (2, [(1, 2), (3, 4), (5, 6), (7, 8), (9, 10), (11, 12)])],
    matches_ := [(image_ids_to_pair_id 1 2, [(0, 0), (1, 1), (2, 2), (3, 3), (4, 4)])] }

/-- The record `read_database_matches` produces for the end-to-end store. -/
def endToEndMatchData : MatchData :=
  { image_id1 := 1, image_id2 := 2, camera_id1 := 1, camera_id2 := 2,
    image_name1 := "img1.jpg", image_name2 := "img2.jpg",
    matches_ := [(10, 20, 1, 2), (30, 40, 3, 4), (50, 60, 5, 6),
                (70, 80, 7, 8), (90, 100, 9, 10)] }

/-! ### Quaternion and Euler geometry
(`export_camera_poses_from_db.py` lines 60-93,
`export_global_poses_from_model.py` lines 74-86)

Machine doubles are modelled as reals.  A quaternion is scalar-first
`(w, x, y, z)`; `qvec[0] = w`, …, `qvec[3] = z` in the model reader. -/

structure Quat where
  w : ℝ
  x : ℝ
  y : ℝ
  z : ℝ

/-- `math.sqrt(qw*qw + qx*qx + qy*qy + qz*qz)`. -/
noncomputable def quatNorm (q : Quat) : ℝ :=
  Real.sqrt (q.w * q.w + q.x * q.x + q.y * q.y + q.z * q.z)

/-- The normalization step `qw, qx, qy, qz = qw/norm, qx/norm, qy/norm,
qz/norm` of `quaternion_to_rotation_matrix` (the Python float division
raises `ZeroDivisionError` when the norm is zero; here the zero-norm case
is excluded by hypothesis wherever it matters). -/
noncomputable def normalizeQuat (q : Quat) : Quat :=
  let norm := quatNorm q
  ⟨q.w / norm, q.x / norm, q.y / norm, q.z / norm⟩

/-- The rotation-matrix formula applied to whatever quaternion it is
given, exactly as written in `quaternion_to_rotation_matrix`. -/
noncomputable def quatRotationFormula (q : Quat) : Matrix (Fin 3) (Fin 3) ℝ :=
  !![1 - 2 * (q.y * q.y + q.z * q.z), 2 * (q.x * q.y - q.w * q.z), 2 * (q.x * q.z + q.w * q.y);
     2 * (q.x * q.y + q.w * q.z), 1 - 2 * (q.x * q.x + q.z * q.z), 2 * (q.y * q.z - q.w * q.x);
     2 * (q.x * q.z - q.w * q.y), 2 * (q.y * q.z + q.w * q.x), 1 - 2 * (q.x * q.x + q.y * q.y)]

/-- `quaternion_to_rotation_matrix` (both database exporters): normalize,
then build the matrix. -/
noncomputable def quaternion_to_rotation_matrix (q : Quat) : Matrix (Fin 3) (Fin 3) ℝ :=
  quatRotationFormula (normalizeQuat q)

/-- `qvec2rotmat` of the model-file reader: the same formula applied to
the raw quaternion, with no normalization step. -/
noncomputable def qvec2rotmat (q : Quat) : Matrix (Fin 3) (Fin 3) ℝ :=
  !![1 - 2 * q.y ^ 2 - 2 * q.z ^ 2, 2 * q.x * q.y - 2 * q.w * q.z, 2 * q.z * q.x + 2 * q.w * q.y;
     2 * q.x * q.y + 2 * q.w * q.z, 1 - 2 * q.x ^ 2 - 2 * q.z ^ 2, 2 * q.y * q.z - 2 * q.w * q.x;
     2 * q.z * q.x - 2 * q.w * q.y, 2 * q.y * q.z + 2 * q.w * q.x, 1 - 2 * q.x ^ 2 - 2 * q.y ^ 2]

/-- `math.atan2(y, x)`: the two-argument arctangent. -/
noncomputable def atan2 (y x : ℝ) : ℝ :=
  if 0 < x then Real.arctan (y / x)
  else if x < 0 ∧ 0 ≤ y then Real.arctan (y / x) + Real.pi
  else if x < 0 then Real.arctan (y / x) - Real.pi
  else if 0 < y then Real.pi / 2
  else if y < 0 then -(Real.pi / 2)
  else 0

/-- `np.degrees`: radians to degrees. -/
noncomputable def degrees (r : ℝ) : ℝ := r * (180 / Real.pi)

/-- `rotation_matrix_to_euler_angles`: ZYX Euler decomposition with the
`sy < 1e-6` gimbal-lock branch, results in degrees (roll, pitch, yaw). -/
noncomputable def rotation_matrix_to_euler_angles (R : Matrix (Fin 3) (Fin 3) ℝ) : ℝ × ℝ × ℝ :=
  let sy := Real.sqrt (R 0 0 * R 0 0 + R 1 0 * R 1 0)
  if sy < 1e-6 then
    (degrees (atan2 (-(R 1 2)) (R 1 1)), degrees (atan2 (-(R 2 0)) sy), degrees 0)
  else
    (degrees (atan2 (R 2 1) (R 2 2)), degrees (atan2 (-(R 2 0)) sy),
     degrees (atan2 (R 1 0) (R 0 0)))

/-! ### Model-file image readers
(`export_global_poses_from_model.py` lines 95-159)

The binary reader consumes values unpacked by `struct.unpack` (signed
ints, float64s, single name bytes until a zero byte); the text reader
consumes whitespace-split line tokens converted by `int(...)` /
`float(...)`.  The byte↔IEEE-754 encoding of a value is below the
abstraction level of ℝ, so a file is modelled as the sequence of primitive
values it decodes to: `FileVal` for the binary stream (name characters
standing for their UTF-8 bytes, the zero terminator for the zero byte) and
token lists per line for the text stream (`Tok.int` a token `int()`
accepts, `Tok.flt` a float-formatted token, `Tok.str` the name token). -/

/-- One primitive value of the binary stream. -/
inductive FileVal where
  | int (n : ℤ)
  | flt (x : ℝ)
  | chr (c : Char)

/-- The `Image` namedtuple: `(id, qvec, tvec, camera_id, name, xys,
point3D_ids)`. -/
structure Image where
  id : ℤ
  qvec : Quat
  tvec : ℝ × ℝ × ℝ
  camera_id : ℤ
  name : String
  xys : List (ℝ × ℝ)
  point3D_ids : List ℤ

/-- Consume one signed integer (`struct` formats `i`, `q`, `Q`). -/
def takeInt : List FileVal → Option (ℤ × List FileVal)
  | .int n :: rest => some (n, rest)
  | _ => none

/-- Consume one float64 (`struct` format `d`). -/
def takeFlt : List FileVal → Option (ℝ × List FileVal)
  | .flt x :: rest => some (x, rest)
  | _ => none

/-- The name loop: read one character at a time until the zero byte,
which is consumed but excluded from the name. -/
def readNameChars : List FileVal → Option (List Char × List FileVal)
  | .chr c :: rest =>
    if c = Char.ofNat 0 then some ([], rest)
    else
      match readNameChars rest with
      | some (s, r) => some (c :: s, r)
      | none => none
  | _ => none

/-- The `"ddq" * num_points2D` unpack: `num_points2D` triples of
`(x: float64, y: float64, point3D_id: signed 64)`. -/
def parseObsBin : ℕ → List FileVal → Option (List (ℝ × ℝ × ℤ) × List FileVal)
  | 0, s => some ([], s)
  | k + 1, s => do
    let (x, s) ← takeFlt s
    let (y, s) ← takeFlt s
    let (pid, s) ← takeInt s
    let (obs, s) ← parseObsBin k s
    some ((x, y, pid) :: obs, s)

/-- One record of `read_images_binary`: the 64-byte `idddddddi` header,
the null-terminated name, the observation count, and the observations;
`xys` and `point3D_ids` are the `0::3`/`1::3` and `2::3` slices.  The
source's sequence of `read_next_bytes` statements (each of which raises on
a truncated file) is the nested fallible-read chain. -/
def parseImageBin (s : List FileVal) : Option (Image × List FileVal) :=
  match takeInt s with
  | none => none
  | some (image_id, s) =>
  match takeFlt s with
  | none => none
  | some (qw, s) =>
  match takeFlt s with
  | none => none
  | some (qx, s) =>
  match takeFlt s with
  | none => none
  | some (qy, s) =>
  match takeFlt s with
  | none => none
  | some (qz, s) =>
  match takeFlt s with
  | none => none
  | some (tx, s) =>
  match takeFlt s with
  | none => none
  | some (ty, s) =>
  match takeFlt s with
  | none => none
  | some (tz, s) =>
  match takeInt s with
  | none => none
  | some (camera_id, s) =>
  match readNameChars s with
  | none => none
  | some (nameChars, s) =>
  match takeInt s with
  | none => none
  | some (num_points2D, s) =>
  match parseObsBin num_points2D.toNat s with
  | none => none
  | some (obs, s) =>
    some ({ id := image_id, qvec := ⟨qw, qx, qy, qz⟩, tvec := (tx, ty, tz),
            camera_id := camera_id, name := String.mk nameChars,
            xys := obs.map (fun o => (o.1, o.2.1)),
            point3D_ids := obs.map (fun o => o.2.2) }, s)

def parseImagesBin : ℕ → List FileVal → Option (List (ℤ × Image))
  | 0, _ => some []
  | k + 1, s => do
    let (img, s) ← parseImageBin s
    let rest ← parseImagesBin k s
    some ((img.id, img) :: rest)

/-- `read_images_binary`: leading 8-byte unsigned record count, then that
many records; the resulting dict keyed by `image_id` is the association
list in read order (trailing data is ignored, as in the source). -/
def read_images_binary (s : List FileVal) : Option (List (ℤ × Image)) := do
  let (num_reg_images, s) ← takeInt s
  parseImagesBin num_reg_images.toNat s

/-- One whitespace-split token of a text line. -/
inductive Tok where
  | int (n : ℤ)
  | flt (x : ℝ)
  | str (s : String)

/-- One raw line of the text file: a `#` comment line, a line that is
empty after stripping, or a line with its split tokens. -/
inductive TextLine where
  | comment
  | blank
  | data (toks : List Tok)

/-- `int(tok)`: succeeds exactly on integer-formatted tokens. -/
def asInt : Tok → Option ℤ
  | .int n => some n
  | _ => none

/-- `float(tok)`: succeeds on integer- or float-formatted tokens. -/
def asFloat : Tok → Option ℝ
  | .int n => some (n : ℝ)
  | .flt x => some x
  | _ => none

/-- `elems[9]` used as the raw name string; in this token model only name
tokens carry one. -/
def asStr : Tok → Option String
  | .str s => some s
  | _ => none

/-- The `[0::3]` slice: every third element starting at the head. -/
def every3rd {α : Type} : List α → List α
  | [] => []
  | [a] => [a]
  | [a, _] => [a]
  | a :: _ :: _ :: rest => a :: every3rd rest

/-- Map a fallible conversion over a list, failing if any element fails
(Python `map(float, ...)` / `map(int, ...)` raising `ValueError`). -/
def mapOption {α β : Type} (f : α → Option β) : List α → Option (List β)
  | [] => some []
  | a :: l => do
    let b ← f a
    let r ← mapOption f l
    some (b :: r)

/-- The observation line: `float` over the `0::3` and `1::3` slices,
`int` over the `2::3` slice; `np.column_stack` requires the two float
slices to have equal length (else `ValueError`), while the id slice is
kept separately with no length check. -/
def parseObsToks (toks : List Tok) : Option (List (ℝ × ℝ) × List ℤ) := do
  let xs ← mapOption asFloat (every3rd toks)
  let ys ← mapOption asFloat (every3rd (toks.drop 1))
  let ids ← mapOption asInt (every3rd (toks.drop 2))
  if xs.length = ys.length then some (xs.zip ys, ids) else none

/-- The header line `image_id qw qx qy qz tx ty tz camera_id image_name`
(tokens beyond the tenth are ignored, as in the source). -/
def parseHeaderToks (toks : List Tok) :
    Option (ℤ × Quat × (ℝ × ℝ × ℝ) × ℤ × String) :=
  match toks with
  | t0 :: t1 :: t2 :: t3 :: t4 :: t5 :: t6 :: t7 :: t8 :: t9 :: _ => do
    let image_id ← asInt t0
    let qw ← asFloat t1
    let qx ← asFloat t2
    let qy ← asFloat t3
    let qz ← asFloat t4
    let tx ← asFloat t5
    let ty ← asFloat t6
    let tz ← asFloat t7
    let camera_id ← asInt t8
    let image_name ← asStr t9
    some (image_id, ⟨qw, qx, qy, qz⟩, (tx, ty, tz), camera_id, image_name)
  | _ => none

def mkImage (image_id : ℤ) (qvec : Quat) (tvec : ℝ × ℝ × ℝ) (camera_id : ℤ)
    (name : String) (obsParsed : List (ℝ × ℝ) × List ℤ) : Image :=
  { id := image_id, qvec := qvec, tvec := tvec, camera_id := camera_id,
    name := name, xys := obsParsed.1, point3D_ids := obsParsed.2 }

/-- `read_images_text`: skip comment and blank lines before a header
line; after a header line the next raw line is read unconditionally for
the observations (at end of file `readline()` returns `""`, i.e. no
tokens; a comment line there would fail `float('#...')`). -/
def read_images_text : List TextLine → Option (List (ℤ × Image))
  | [] => some []
  | .comment :: rest => read_images_text rest
  | .blank :: rest => read_images_text rest
  | .data toks :: rest =>
    match parseHeaderToks toks with
    | none => none
    | some (image_id, qvec, tvec, camera_id, image_name) =>
      match rest with
      | [] =>
        (parseObsToks []).map fun ob =>
          [(image_id, mkImage image_id qvec tvec camera_id image_name ob)]
      | .comment :: _ => none
      | .blank :: r2 =>
        match parseObsToks [], read_images_text r2 with
        | some ob, some tail =>
          some ((image_id, mkImage image_id qvec tvec camera_id image_name ob) :: tail)
        | _, _ => none
      | .data otoks :: r2 =>
        match parseObsToks otoks, read_images_text r2 with
        | some ob, some tail =>
          some ((image_id, mkImage image_id qvec tvec camera_id image_name ob) :: tail)
        | _, _ => none

/-! ### Encoders for the two layouts and the equivalence contents.

The readers are the source's; the encoders below are the layouts the
readers parse.  Modelled from the spec: §4.3 fixes the binary image record
layout (count, `(imageId, q…, t…, cameraId)` header, null-terminated name,
observation count, `(x, y, point3DId)` triples) and the text layout (one
header line `imageId qw qx qy qz tx ty tz cameraId imageName`, one line of
flattened observation triples); no writer exists under `src/`. -/

/-- One image record's abstract content. -/
structure ImageContent where
  id : ℤ
  qw : ℝ
  qx : ℝ
  qy : ℝ
  qz : ℝ
  tx : ℝ
  ty : ℝ
  tz : ℝ
  camera_id : ℤ
  name : String
  obs : List (ℝ × ℝ × ℤ)

/-- The in-memory `Image` both readers should produce for a content. -/
def toImage (c : ImageContent) : Image :=
  { id := c.id, qvec := ⟨c.qw, c.qx, c.qy, c.qz⟩, tvec := (c.tx, c.ty, c.tz),
    camera_id := c.camera_id, name := c.name,
    xys := c.obs.map (fun o => (o.1, o.2.1)),
    point3D_ids := c.obs.map (fun o => o.2.2) }

def encodeObsBin (obs : List (ℝ × ℝ × ℤ)) : List FileVal :=
  obs.flatMap fun o => [.flt o.1, .flt o.2.1, .int o.2.2]

/-- Modelled from the spec: §4.3's binary image record layout. -/
def encodeImageBin (c : ImageContent) : List FileVal :=
  [.int c.id, .flt c.qw, .flt c.qx, .flt c.qy, .flt c.qz,
   .flt c.tx, .flt c.ty, .flt c.tz, .int c.camera_id] ++
  c.name.data.map FileVal.chr ++
  [.chr (Char.ofNat 0), .int (c.obs.length : ℤ)] ++ encodeObsBin c.obs

/-- Modelled from the spec: the binary images file is the record count
followed by the records. -/
def encode_images_binary (l : List ImageContent) : List FileVal :=
  .int (l.length : ℤ) :: l.flatMap encodeImageBin

def headerToks (c : ImageContent) : List Tok :=
  [.int c.id, .flt c.qw, .flt c.qx, .flt c.qy, .flt c.qz,
   .flt c.tx, .flt c.ty, .flt c.tz, .int c.camera_id, .str c.name]

def obsToks (obs : List (ℝ × ℝ × ℤ)) : List Tok :=
  obs.flatMap fun o => [.flt o.1, .flt o.2.1, .int o.2.2]

/-- Modelled from the spec: §4.3's text layout, one header line and one
observation line per record (an image without observations writes an
empty observation line). -/
def encodeImageText (c : ImageContent) : List TextLine :=
  [.data (headerToks c), if c.obs.isEmpty then .blank else .data (obsToks c.obs)]

def encode_images_text (l : List ImageContent) : List TextLine :=
  l.flatMap encodeImageText

/-- Contents both layouts can carry faithfully: the name is non-empty
(else the text header would have nine tokens), free of the zero byte (the
binary terminator) and of whitespace (the text tokenizer's separators). -/
def WFImageContent (c : ImageContent) : Prop :=
  c.name ≠ "" ∧
  ∀ ch ∈ c.name.data,
    ch ≠ Char.ofNat 0 ∧ ch ≠ ' ' ∧ ch ≠ '\t' ∧ ch ≠ '\n' ∧ ch ≠ '\r'

instance (c : ImageContent) : Decidable (WFImageContent c) := by
  unfold WFImageContent
  infer_instance

/-- A concrete one-record content for evaluating both readers. -/
def modelContent : ImageContent :=
  { id := 7, qw := 1, qx := 0, qy := 0, qz := 0, tx := 2, ty := 3, tz := 4,
    camera_id := 1, name := "a", obs := [(5, 6, -1)] }

end PoSDK

namespace PoSDK

/-- C2: Pair-ID round trip: for `idLow ≤ idHigh < 2^31 - 1`, decoding the
encoded pair key returns exactly the original pair, and re-encoding the
decoded components reproduces the same key. -/
theorem pair_id_round_trip (a b : ℕ) (hab : a ≤ b) (hb : b < MAX_IMAGE_ID) :
    pair_id_to_image_ids (image_ids_to_pair_id a b) = (a, b) ∧
    image_ids_to_pair_id a b = a * MAX_IMAGE_ID + b ∧
    image_ids_to_pair_id (pair_id_to_image_ids (image_ids_to_pair_id a b)).1
        (pair_id_to_image_ids (image_ids_to_pair_id a b)).2 =
      image_ids_to_pair_id a b := by
  have henc : image_ids_to_pair_id a b = a * MAX_IMAGE_ID + b := by
    have : ¬ a > b := Nat.not_lt.mpr hab
    simp [image_ids_to_pair_id, this]
  have hmod : (a * MAX_IMAGE_ID + b) % MAX_IMAGE_ID = b := by
    rw [Nat.add_comm, Nat.add_mul_mod_self_right, Nat.mod_eq_of_lt hb]
  have hdec : pair_id_to_image_ids (a * MAX_IMAGE_ID + b) = (a, b) := by
    have hM : 0 < MAX_IMAGE_ID := by decide
    simp only [pair_id_to_image_ids, hmod, Nat.add_sub_cancel]
    rw [Nat.mul_div_cancel _ hM]
  refine ⟨by rw [henc, hdec], henc, ?_⟩
  rw [henc, hdec, henc]

/-- Witness for `pair_id_round_trip` at `(3, 7)`. -/
theorem pair_id_round_trip_witness :
    pair_id_to_image_ids (image_ids_to_pair_id 3 7) = (3, 7) := by
  exact (pair_id_round_trip 3 7 (by decide) (by decide)).1

/-- C9 counterexample: the encoder does not fail on an out-of-range
identifier.  At `idHigh = 2^31 - 1` (outside `[0, 2^31 - 1)`) it returns an
ordinary pair key — demonstrating that no `RangeError` is raised — and that
key decodes to the different pair `(1, 0)`. -/
theorem image_ids_to_pair_id_no_range_check :
    image_ids_to_pair_id 0 MAX_IMAGE_ID = MAX_IMAGE_ID ∧
    pair_id_to_image_ids (image_ids_to_pair_id 0 MAX_IMAGE_ID) = (1, 0) := by
  constructor
  · simp [image_ids_to_pair_id, MAX_IMAGE_ID]
  · simp only [image_ids_to_pair_id, MAX_IMAGE_ID]
    decide

/-- C9 (amended): `_image_ids_to_pair_id` performs no range validation:
for every pair of identifiers with `idLow ≤ idHigh` — in range or not — it
totally returns `idLow * (2^31 - 1) + idHigh`. -/
theorem image_ids_to_pair_id_total (a b : ℕ) (hab : a ≤ b) :
    image_ids_to_pair_id a b = a * MAX_IMAGE_ID + b := by
  have : ¬ a > b := Nat.not_lt.mpr hab
  simp [image_ids_to_pair_id, this]

/-- Witness for `image_ids_to_pair_id_total` at the out-of-range input
`(2^31 - 1, 2^31)`. -/
theorem image_ids_to_pair_id_total_witness :
    image_ids_to_pair_id MAX_IMAGE_ID (MAX_IMAGE_ID + 1) =
      MAX_IMAGE_ID * MAX_IMAGE_ID + (MAX_IMAGE_ID + 1) := by
  exact image_ids_to_pair_id_total MAX_IMAGE_ID (MAX_IMAGE_ID + 1) (Nat.le_succ _)

theorem chunksGo_spec {α : Type} :
    ∀ (fuel n : ℕ) (l : List α), 0 < n → l.length ≤ fuel → n ∣ l.length →
      (chunksGo fuel n l).length = l.length / n ∧
        ∀ c ∈ chunksGo fuel n l, c.length = n
  | 0, n, l, _, hfuel, _ => by
    have : l = [] := List.eq_nil_of_length_eq_zero (Nat.le_zero.mp hfuel)
    subst this
    simp [chunksGo]
  | fuel + 1, n, [], hn, _, _ => by simp [chunksGo]
  | fuel + 1, n, a :: l, hn, hfuel, hdvd => by
    have hpos : 0 < (a :: l).length := by simp
    have hle : n ≤ (a :: l).length := Nat.le_of_dvd hpos hdvd
    have hdvd' : n ∣ (a :: l).length - n := Nat.dvd_sub' hdvd dvd_rfl
    have hlen' : ((a :: l).drop n).length = (a :: l).length - n := List.length_drop n _
    have hfuel' : ((a :: l).drop n).length ≤ fuel := by
      rw [hlen']
      omega
    obtain ⟨ih1, ih2⟩ := chunksGo_spec fuel n ((a :: l).drop n) hn hfuel' (hlen' ▸ hdvd')
    constructor
    · show (((a :: l).take n) :: chunksGo fuel n ((a :: l).drop n)).length = _
      rw [List.length_cons, ih1, hlen', Nat.div_eq_sub_div hn hle]
    · intro c hc
      rcases List.mem_cons.mp hc with h | h
      · subst h
        rw [List.length_take]
        omega
      · exact ih2 c h

theorem chunksGo_mem {α : Type} :
    ∀ (fuel n : ℕ) (l : List α) (c : List α), c ∈ chunksGo fuel n l →
      ∀ x ∈ c, x ∈ l
  | 0, _, _, _, hc => by simp [chunksGo] at hc
  | _ + 1, _, [], _, hc => by simp [chunksGo] at hc
  | fuel + 1, n, a :: l, c, hc => by
    intro x hx
    rcases List.mem_cons.mp hc with h | h
    · subst h
      exact List.take_subset n _ hx
    · exact List.drop_subset n _ (chunksGo_mem fuel n _ c h x hx)

theorem chunks_spec {α : Type} (n : ℕ) (l : List α) (hn : 0 < n)
    (hdvd : n ∣ l.length) :
    (chunks n l).length = l.length / n ∧ ∀ c ∈ chunks n l, c.length = n :=
  chunksGo_spec l.length n l hn le_rfl hdvd

/-- C8: a blob whose byte length is not divisible by `cols * elementSize`
fails with `DecodeError`; a blob of exactly `rows * cols * elementSize`
bytes decodes without error into a rows-by-cols array of elements of
`elementSize` bytes each. -/
theorem blob_to_array_spec (esize cols : ℕ) (blob : List ℕ)
    (he : 0 < esize) (hc : 0 < cols) :
    (¬ cols * esize ∣ blob.length →
      blob_to_array esize cols blob = .error .DecodeError) ∧
    (∀ rows : ℕ, blob.length = rows * cols * esize →
      ∃ arr, blob_to_array esize cols blob = .ok arr ∧ arr.length = rows ∧
        ∀ row ∈ arr, row.length = cols ∧ ∀ el ∈ row, el.length = esize) := by
  constructor
  · intro hnd
    by_cases h1 : blob.length % esize = 0
    · have hde : esize ∣ blob.length := Nat.dvd_of_mod_eq_zero h1
      obtain ⟨hlen, -⟩ := chunks_spec esize blob he hde
      have hnc : ¬ cols ∣ blob.length / esize := by
        intro hcd
        exact hnd (Nat.mul_comm esize cols ▸ (Nat.dvd_div_iff_mul_dvd hde).mp hcd)
      have h2 : (chunks esize blob).length % cols ≠ 0 := by
        rw [hlen]
        exact fun h => hnc (Nat.dvd_of_mod_eq_zero h)
      simp [blob_to_array, h1, h2]
    · simp [blob_to_array, h1]
  · intro rows hlen
    have hde : esize ∣ blob.length := hlen ▸ Dvd.intro (rows * cols) (Nat.mul_comm _ _)
    have h1 : blob.length % esize = 0 := Nat.mod_eq_zero_of_dvd hde
    obtain ⟨helen, hesz⟩ := chunks_spec esize blob he hde
    have helen' : (chunks esize blob).length = rows * cols := by
      rw [helen, hlen, Nat.mul_div_cancel _ he]
    have hcd : cols ∣ (chunks esize blob).length := helen' ▸ Dvd.intro rows (Nat.mul_comm _ _)
    have h2 : (chunks esize blob).length % cols = 0 := Nat.mod_eq_zero_of_dvd hcd
    obtain ⟨harrlen, harow⟩ := chunks_spec cols (chunks esize blob) hc hcd
    refine ⟨chunks cols (chunks esize blob), ?_, ?_, ?_⟩
    · simp [blob_to_array, h1, h2]
    · rw [harrlen, helen', Nat.mul_div_cancel _ hc]
    · intro row hrow
      refine ⟨harow row hrow, fun el hel => ?_⟩
      exact hesz el (chunksGo_mem _ cols _ row hrow el hel)

/-- Witness for `blob_to_array_spec`: a 6-byte blob is not divisible by
`2 * 4` and fails; an 8-byte blob decodes into a 1-by-2 array of 4-byte
(float32-sized) elements. -/
theorem blob_to_array_spec_witness :
    blob_to_array FLOAT32_SIZE 2 [0, 1, 2, 3, 4, 5] = .error .DecodeError ∧
    ∃ arr, blob_to_array FLOAT32_SIZE 2 [0, 0, 0, 0, 1, 1, 1, 1] = .ok arr ∧
      arr.length = 1 ∧ ∀ row ∈ arr, row.length = 2 ∧ ∀ el ∈ row, el.length = FLOAT32_SIZE :=
  ⟨(blob_to_array_spec FLOAT32_SIZE 2 [0, 1, 2, 3, 4, 5] (by decide) (by decide)).1
      (by decide),
   (blob_to_array_spec FLOAT32_SIZE 2 [0, 0, 0, 0, 1, 1, 1, 1] (by decide) (by decide)).2
      1 (by decide)⟩

/-- C1 (amended): the per-image reader's row resolution follows the
three-way precedence exactly: all seven optimized fields non-null → use
them with `is_registered = true`; otherwise all four prior quaternion
fields non-null → use them, null prior translations defaulting to `0`,
with `is_registered = false`; otherwise the row is skipped.  The global
reader applies the optimized/prior choice per store, not per row (see the
counterexample). -/
theorem resolveImageRow_precedence (r : ImageRow) :
    (∀ a b c d e f g : ℚ, r.qw = some a → r.qx = some b → r.qy = some c →
      r.qz = some d → r.tx = some e → r.ty = some f → r.tz = some g →
      resolveImageRow r =
        some ⟨r.image_id, r.name, r.camera_id, true, (a, b, c, d), (e, f, g)⟩) ∧
    ((r.qw = none ∨ r.qx = none ∨ r.qy = none ∨ r.qz = none ∨
        r.tx = none ∨ r.ty = none ∨ r.tz = none) →
      ∀ pa pb pc pd : ℚ, r.prior_qw = some pa → r.prior_qx = some pb →
        r.prior_qy = some pc → r.prior_qz = some pd →
        resolveImageRow r =
          some ⟨r.image_id, r.name, r.camera_id, false, (pa, pb, pc, pd),
            (r.prior_tx.getD 0, r.prior_ty.getD 0, r.prior_tz.getD 0)⟩) ∧
    ((r.qw = none ∨ r.qx = none ∨ r.qy = none ∨ r.qz = none ∨
        r.tx = none ∨ r.ty = none ∨ r.tz = none) →
      (r.prior_qw = none ∨ r.prior_qx = none ∨ r.prior_qy = none ∨ r.prior_qz = none) →
      resolveImageRow r = none) := by
  refine ⟨?_, ?_, ?_⟩
  · intro a b c d e f g h1 h2 h3 h4 h5 h6 h7
    simp [resolveImageRow, h1, h2, h3, h4, h5, h6, h7]
  · intro hn pa pb pc pd hp1 hp2 hp3 hp4
    rcases hn with h | h | h | h | h | h | h <;>
      simp [resolveImageRow, h, hp1, hp2, hp3, hp4]
  · intro hn hpn
    rcases hn with h | h | h | h | h | h | h <;>
      rcases hpn with hp | hp | hp | hp <;>
        simp [resolveImageRow, h, hp]

/-- Witness for `resolveImageRow_precedence`: the prior-only image of the
synthetic store resolves through the prior branch with translation
defaulted to zero and `is_registered = false`. -/
theorem resolveImageRow_precedence_witness :
    resolveImageRow endToEndImage2 =
      some ⟨2, "img2.jpg", 2, false, (1, 0, 0, 0), (0, 0, 0)⟩ :=
  (resolveImageRow_precedence endToEndImage2).2.1 (Or.inl rfl) 1 0 0 0 rfl rfl rfl rfl

/-- C1 counterexample: in a store whose schema has the optimized columns,
a row with all four prior quaternion fields non-null but no optimized pose
is absent from the global reader's resolved output — the claimed per-row
prior fallback does not happen there. -/
theorem global_reader_prior_row_counterexample :
    read_global_poses_from_database priorOnlyDB = [] ∧
    endToEndImage2.prior_qw.isSome = true ∧ endToEndImage2.prior_qx.isSome = true ∧
    endToEndImage2.prior_qy.isSome = true ∧ endToEndImage2.prior_qz.isSome = true ∧
    endToEndImage2.qw = none := by
  refine ⟨?_, rfl, rfl, rfl, rfl, rfl⟩
  decide

theorem read_global_endToEnd_eval :
    read_global_poses_from_database endToEndGlobalDB =
      [⟨1, "img1.jpg", 1, (1, 0, 0, 0), (0, 0, 0)⟩] := by
  have hnz : quatNormSq ((1 : ℚ), 0, 0, 0) ≠ 0 := by norm_num [quatNormSq]
  simp [read_global_poses_from_database, endToEndGlobalDB, endToEndImage1,
    endToEndImage2, endToEndImage3, List.filterMap, hnz,
    -Prod.mk_zero_zero, -Prod.mk_one_one]

/-- C3 counterexample: on the synthetic end-to-end store the global
exporter resolves only the fully optimized image, so the first line of the
global pose file is `"1\n"`, not `"2\n"`. -/
theorem global_pose_file_counterexample :
    (export_global_poses_txt (read_global_poses_from_database endToEndGlobalDB)).firstLine ≠ "2\n" ∧
    (read_global_poses_from_database endToEndGlobalDB).length ≠ 2 := by
  rw [read_global_endToEnd_eval]
  constructor <;> decide

/-- C3 (amended): on the synthetic store the global exporter resolves
exactly 1 of the 3 images (the fully optimized one; with the optimized
columns present in the schema the prior-only image is skipped) and writes
`"1\n"` as the first line of the global pose file. -/
theorem global_pose_file_first_line :
    read_global_poses_from_database endToEndGlobalDB =
      [⟨1, "img1.jpg", 1, (1, 0, 0, 0), (0, 0, 0)⟩] ∧
    (export_global_poses_txt (read_global_poses_from_database endToEndGlobalDB)).firstLine =
      "1\n" := by
  refine ⟨read_global_endToEnd_eval, ?_⟩
  rw [read_global_endToEnd_eval]
  decide

/-- C4 counterexample: under the source's default threshold
`--min_matches = 15`, the end-to-end store's single pair (5 matches) is
filtered out and no match file is written at all, although the reader did
produce its record. -/
theorem match_export_default_threshold_counterexample :
    matches_export_main endToEndMatchDB 15 = [] ∧
    read_database_matches endToEndMatchDB = [endToEndMatchData] := by
  constructor <;> decide

/-- C4 (amended): provided the configured minimum match count is at most 5,
the exporter writes exactly one match file for the end-to-end store, named
from the two image names with extensions stripped, with first line the two
camera identifiers and exactly 5 coordinate lines. -/
theorem match_export_end_to_end (mm : ℕ) (hmm : mm ≤ 5) :
    matches_export_main endToEndMatchDB mm =
      [{ filename := "matches_img1_img2.txt", firstLine := "1 2",
         coordLines := [(10, 20, 1, 2), (30, 40, 3, 4), (50, 60, 5, 6),
                        (70, 80, 7, 8), (90, 100, 9, 10)] }] ∧
    ∀ file ∈ matches_export_main endToEndMatchDB mm, file.coordLines.length = 5 := by
  have hread : read_database_matches endToEndMatchDB = [endToEndMatchData] := by decide
  have hlen : endToEndMatchData.matches_.length = 5 := by decide
  have hfilter :
      (read_database_matches endToEndMatchDB).filter
        (fun m => mm ≤ m.matches_.length) = [endToEndMatchData] := by
    rw [hread]
    simp [List.filter, hlen, hmm]
  constructor
  · rw [matches_export_main, hfilter]
    decide
  · intro file hfile
    rw [matches_export_main, hfilter] at hfile
    simp only [export_matches_to_files, List.map_cons, List.map_nil,
      List.mem_singleton] at hfile
    subst hfile
    decide

/-- Witness for `match_export_end_to_end` at threshold 5. -/
theorem match_export_end_to_end_witness :
    matches_export_main endToEndMatchDB 5 =
      [{ filename := "matches_img1_img2.txt", firstLine := "1 2",
         coordLines := [(10, 20, 1, 2), (30, 40, 3, 4), (50, 60, 5, 6),
                        (70, 80, 7, 8), (90, 100, 9, 10)] }] :=
  (match_export_end_to_end 5 (by decide)).1

/-- C10: every stored index pair is bounds-checked against both keypoint
lists before indexing: the exported coordinate list keeps exactly the
in-range pairs (so it can be shorter than the stored match count, with no
error), and a row whose index pairs are all out of range yields no match
record — hence no match file — at all. -/
theorem match_index_bounds (k1 k2 : List (ℚ × ℚ)) (ms : List (ℕ × ℕ))
    (imgs : List ImageMeta) (kps : List (ℕ × List (ℚ × ℚ))) (pid : ℕ) :
    (matchCoords k1 k2 ms).length =
      ms.countP (fun m => decide (m.1 < k1.length ∧ m.2 < k2.length)) ∧
    (matchCoords k1 k2 ms).length ≤ ms.length ∧
    ((∀ m ∈ ms, ¬ (m.1 < k1.length ∧ m.2 < k2.length)) → matchCoords k1 k2 ms = []) ∧
    (findKeypoints kps (pair_id_to_image_ids pid).1 = some k1 →
      findKeypoints kps (pair_id_to_image_ids pid).2 = some k2 →
      (∀ m ∈ ms, ¬ (m.1 < k1.length ∧ m.2 < k2.length)) →
      matchRowEntry imgs kps pid ms = none) := by
  have hcount : (matchCoords k1 k2 ms).length =
      ms.countP (fun m => decide (m.1 < k1.length ∧ m.2 < k2.length)) := by
    induction ms with
    | nil => simp [matchCoords]
    | cons m ms ih =>
      simp only [matchCoords, List.filterMap_cons] at ih ⊢
      rcases hk1 : k1[m.1]? with _ | p1 <;> rcases hk2 : k2[m.2]? with _ | p2
      · have h1 : ¬ m.1 < k1.length := by
          simpa using List.getElem?_eq_none_iff.mp hk1
        rw [List.countP_cons]
        simp [ih, h1]
      · have h1 : ¬ m.1 < k1.length := by
          simpa using List.getElem?_eq_none_iff.mp hk1
        rw [List.countP_cons]
        simp [ih, h1]
      · have h2 : ¬ m.2 < k2.length := by
          simpa using List.getElem?_eq_none_iff.mp hk2
        rw [List.countP_cons]
        simp [ih, h2]
      · have h1 : m.1 < k1.length := by
          by_contra hc
          rw [List.getElem?_eq_none_iff.mpr (Nat.le_of_not_lt hc)] at hk1
          exact Option.noConfusion hk1
        have h2 : m.2 < k2.length := by
          by_contra hc
          rw [List.getElem?_eq_none_iff.mpr (Nat.le_of_not_lt hc)] at hk2
          exact Option.noConfusion hk2
        rw [List.countP_cons]
        simp [ih, h1, h2]
  have hempty : (∀ m ∈ ms, ¬ (m.1 < k1.length ∧ m.2 < k2.length)) →
      matchCoords k1 k2 ms = [] := by
    intro hall
    have : ms.countP (fun m => decide (m.1 < k1.length ∧ m.2 < k2.length)) = 0 := by
      rw [List.countP_eq_zero]
      intro m hm
      simpa using hall m hm
    exact List.length_eq_zero.mp (hcount.trans this)
  refine ⟨hcount, ?_, hempty, ?_⟩
  · rw [hcount]
    exact List.countP_le_length _
  · intro hf1 hf2 hall
    rw [matchRowEntry]
    by_cases hms : ms.length = 0
    · simp [hms]
    · simp only [hms, if_false]
      rcases hi1 : findImage imgs (pair_id_to_image_ids pid).1 with _ | m1
      · simp [hf1, hf2]
      · rcases hi2 : findImage imgs (pair_id_to_image_ids pid).2 with _ | m2
        · simp [hf1, hf2, hi1]
        · have hc0 : (matchCoords k1 k2 ms).length = 0 := by
            rw [hempty hall]
            rfl
          simp [hf1, hf2, hi1, hi2, hc0]

/-- Witness for `match_index_bounds`: two out-of-range index pairs produce
an empty coordinate list and no match record. -/
theorem match_index_bounds_witness :
    matchCoords [(1, 2)] [(3, 4)] [(5, 0), (0, 7)] = [] ∧
    matchRowEntry [⟨1, "a.jpg", 1⟩, ⟨2, "b.jpg", 2⟩]
      [(1, [(1, 2)]), (2, [(3, 4)])] (image_ids_to_pair_id 1 2) [(5, 0), (0, 7)] = none :=
  ⟨(match_index_bounds [(1, 2)] [(3, 4)] [(5, 0), (0, 7)] [] [] 0).2.2.1 (by decide),
   (match_index_bounds [(1, 2)] [(3, 4)] [(5, 0), (0, 7)]
      [⟨1, "a.jpg", 1⟩, ⟨2, "b.jpg", 2⟩] [(1, [(1, 2)]), (2, [(3, 4)])]
      (image_ids_to_pair_id 1 2)).2.2.2 (by decide) (by decide) (by decide)⟩

/-- C5 counterexample: the model-file conversion `qvec2rotmat` consumes
its quaternion unnormalized: at `(0, 2, 0, 0)` the quaternion fed to the
formula has norm 2 (not within `1e-6` of 1), and the produced matrix
differs from the one the normalizing database-path conversion yields. -/
theorem qvec2rotmat_no_normalization :
    quatNorm ⟨0, 2, 0, 0⟩ = 2 ∧
    ¬ |quatNorm ⟨0, 2, 0, 0⟩ - 1| ≤ 1e-6 ∧
    qvec2rotmat ⟨0, 2, 0, 0⟩ ≠ quaternion_to_rotation_matrix ⟨0, 2, 0, 0⟩ := by
  have hnorm : quatNorm ⟨0, 2, 0, 0⟩ = 2 := by
    show Real.sqrt ((0:ℝ) * 0 + 2 * 2 + 0 * 0 + 0 * 0) = 2
    rw [show ((0:ℝ) * 0 + 2 * 2 + 0 * 0 + 0 * 0) = 2 ^ 2 by norm_num,
      Real.sqrt_sq (by norm_num)]
  refine ⟨hnorm, by rw [hnorm]; norm_num, ?_⟩
  intro hEq
  have h11 := congrFun (congrFun hEq 1) 1
  rw [qvec2rotmat, quaternion_to_rotation_matrix, quatRotationFormula, normalizeQuat] at h11
  simp only [hnorm] at h11
  norm_num [Matrix.cons_val_one, Matrix.head_cons] at h11

/-- C5 (amended): the database-path conversion
`quaternion_to_rotation_matrix` does normalize: for every quaternion of
nonzero norm the quaternion actually fed to the matrix formula has exact
unit norm (hence within `1e-6` of 1); the model-file path (`qvec2rotmat`)
applies the formula to the raw quaternion with no normalization (see the
counterexample). -/
theorem quaternion_to_rotation_matrix_normalizes (q : Quat) (h : quatNorm q ≠ 0) :
    quatNorm (normalizeQuat q) = 1 ∧
    |quatNorm (normalizeQuat q) - 1| ≤ 1e-6 ∧
    quaternion_to_rotation_matrix q = quatRotationFormula (normalizeQuat q) := by
  have hS : (0:ℝ) ≤ q.w * q.w + q.x * q.x + q.y * q.y + q.z * q.z :=
    add_nonneg (add_nonneg (add_nonneg (mul_self_nonneg q.w) (mul_self_nonneg q.x))
      (mul_self_nonneg q.y)) (mul_self_nonneg q.z)
  have hn2 : quatNorm q * quatNorm q = q.w * q.w + q.x * q.x + q.y * q.y + q.z * q.z :=
    Real.mul_self_sqrt hS
  have hS0 : q.w * q.w + q.x * q.x + q.y * q.y + q.z * q.z ≠ 0 := by
    rw [← hn2]
    exact mul_ne_zero h h
  have key : quatNorm (normalizeQuat q) = 1 := by
    show Real.sqrt (q.w / quatNorm q * (q.w / quatNorm q) +
        q.x / quatNorm q * (q.x / quatNorm q) +
        q.y / quatNorm q * (q.y / quatNorm q) +
        q.z / quatNorm q * (q.z / quatNorm q)) = 1
    have harith : q.w / quatNorm q * (q.w / quatNorm q) +
        q.x / quatNorm q * (q.x / quatNorm q) +
        q.y / quatNorm q * (q.y / quatNorm q) +
        q.z / quatNorm q * (q.z / quatNorm q) =
        (q.w * q.w + q.x * q.x + q.y * q.y + q.z * q.z) /
          (quatNorm q * quatNorm q) := by
      ring
    rw [harith, hn2, div_self hS0, Real.sqrt_one]
  refine ⟨key, by rw [key]; norm_num, rfl⟩

/-- Witness for `quaternion_to_rotation_matrix_normalizes` at the
quaternion `(1, 0, 0, 0)`. -/
theorem quaternion_to_rotation_matrix_normalizes_witness :
    quatNorm (normalizeQuat ⟨1, 0, 0, 0⟩) = 1 ∧
    |quatNorm (normalizeQuat ⟨1, 0, 0, 0⟩) - 1| ≤ 1e-6 ∧
    quaternion_to_rotation_matrix ⟨1, 0, 0, 0⟩ =
      quatRotationFormula (normalizeQuat ⟨1, 0, 0, 0⟩) :=
  quaternion_to_rotation_matrix_normalizes ⟨1, 0, 0, 0⟩ (by
    show Real.sqrt ((1:ℝ) * 1 + 0 * 0 + 0 * 0 + 0 * 0) ≠ 0
    rw [show ((1:ℝ) * 1 + 0 * 0 + 0 * 0 + 0 * 0) = 1 by norm_num, Real.sqrt_one]
    norm_num)

/-- C6: `rotation_matrix_to_euler_angles` computes
`sy = sqrt(R00^2 + R10^2)`; when `sy < 1e-6` it takes the alternate branch
`(atan2(-R12, R11), atan2(-R20, sy), 0)` with yaw exactly 0, otherwise the
standard branch `(atan2(R21, R22), atan2(-R20, sy), atan2(R10, R00))`;
all three results are converted to degrees. -/
theorem rotation_matrix_to_euler_angles_branches (R : Matrix (Fin 3) (Fin 3) ℝ) :
    (Real.sqrt (R 0 0 * R 0 0 + R 1 0 * R 1 0) < 1e-6 →
      rotation_matrix_to_euler_angles R =
        (degrees (atan2 (-(R 1 2)) (R 1 1)),
         degrees (atan2 (-(R 2 0)) (Real.sqrt (R 0 0 * R 0 0 + R 1 0 * R 1 0))),
         0)) ∧
    (1e-6 ≤ Real.sqrt (R 0 0 * R 0 0 + R 1 0 * R 1 0) →
      rotation_matrix_to_euler_angles R =
        (degrees (atan2 (R 2 1) (R 2 2)),
         degrees (atan2 (-(R 2 0)) (Real.sqrt (R 0 0 * R 0 0 + R 1 0 * R 1 0))),
         degrees (atan2 (R 1 0) (R 0 0)))) := by
  constructor
  · intro h
    rw [rotation_matrix_to_euler_angles]
    simp only [if_pos h]
    simp only [degrees, zero_mul]
  · intro h
    rw [rotation_matrix_to_euler_angles]
    simp only [if_neg (not_lt.mpr h)]

/-- Witness for `rotation_matrix_to_euler_angles_branches`: a rotation
matrix with `R00 = R10 = 0` gives `sy = 0 < 1e-6`, takes the alternate
branch, and its yaw is exactly 0. -/
theorem rotation_matrix_to_euler_angles_branches_witness :
    rotation_matrix_to_euler_angles !![(0:ℝ), 1, 0; 0, 0, 1; 1, 0, 0] =
      (degrees (atan2 (-(!![(0:ℝ), 1, 0; 0, 0, 1; 1, 0, 0] 1 2))
          (!![(0:ℝ), 1, 0; 0, 0, 1; 1, 0, 0] 1 1)),
       degrees (atan2 (-(!![(0:ℝ), 1, 0; 0, 0, 1; 1, 0, 0] 2 0))
          (Real.sqrt (!![(0:ℝ), 1, 0; 0, 0, 1; 1, 0, 0] 0 0 *
            !![(0:ℝ), 1, 0; 0, 0, 1; 1, 0, 0] 0 0 +
            !![(0:ℝ), 1, 0; 0, 0, 1; 1, 0, 0] 1 0 *
            !![(0:ℝ), 1, 0; 0, 0, 1; 1, 0, 0] 1 0))),
       0) :=
  (rotation_matrix_to_euler_angles_branches !![(0:ℝ), 1, 0; 0, 0, 1; 1, 0, 0]).1 (by
    have h00 : !![(0:ℝ), 1, 0; 0, 0, 1; 1, 0, 0] 0 0 = 0 := by
      simp [Matrix.cons_val_zero]
    have h10 : !![(0:ℝ), 1, 0; 0, 0, 1; 1, 0, 0] 1 0 = 0 := by
      simp [Matrix.cons_val_one, Matrix.head_cons, Matrix.cons_val_zero]
    rw [h00, h10]
    rw [show (0:ℝ) * 0 + 0 * 0 = 0 by norm_num, Real.sqrt_zero]
    norm_num)

theorem readNameChars_encode (cs : List Char) (rest : List FileVal)
    (h : ∀ ch ∈ cs, ch ≠ Char.ofNat 0) :
    readNameChars (cs.map FileVal.chr ++ FileVal.chr (Char.ofNat 0) :: rest) =
      some (cs, rest) := by
  induction cs with
  | nil => simp [readNameChars]
  | cons c cs ih =>
    have hc : c ≠ Char.ofNat 0 := h c (by simp)
    have ih' := ih fun ch hch => h ch (by simp [hch])
    simp [readNameChars, hc, ih']

theorem parseObsBin_encode (obs : List (ℝ × ℝ × ℤ)) (rest : List FileVal) :
    parseObsBin obs.length (encodeObsBin obs ++ rest) = some (obs, rest) := by
  induction obs with
  | nil => simp [parseObsBin, encodeObsBin]
  | cons o obs ih =>
    simp only [encodeObsBin] at ih ⊢
    simp [parseObsBin, takeFlt, takeInt, List.flatMap_cons,
      List.cons_append, List.append_assoc, ih]

set_option maxHeartbeats 1000000 in
theorem parseImageBin_encode (c : ImageContent) (rest : List FileVal)
    (h : ∀ ch ∈ c.name.data, ch ≠ Char.ofNat 0) :
    parseImageBin (encodeImageBin c ++ rest) = some (toImage c, rest) := by
  have hname := readNameChars_encode c.name.data
    (FileVal.int (c.obs.length : ℤ) :: (encodeObsBin c.obs ++ rest)) h
  have hobs := parseObsBin_encode c.obs rest
  simp only [encodeImageBin, List.cons_append, List.append_assoc, List.nil_append]
  simp only [parseImageBin]
  simp only [takeInt, takeFlt]
  rw [hname]
  simp only [Int.toNat_natCast]
  rw [hobs]
  simp only [toImage]

theorem parseImagesBin_encode (l : List ImageContent)
    (h : ∀ c ∈ l, ∀ ch ∈ c.name.data, ch ≠ Char.ofNat 0) :
    parseImagesBin l.length (l.flatMap encodeImageBin) =
      some (l.map fun c => (c.id, toImage c)) := by
  induction l with
  | nil => simp [parseImagesBin]
  | cons c l ih =>
    have h1 := h c (by simp)
    have h2 : ∀ c' ∈ l, ∀ ch ∈ c'.name.data, ch ≠ Char.ofNat 0 :=
      fun c' hc' => h c' (by simp [hc'])
    simp [parseImagesBin, List.flatMap_cons, parseImageBin_encode c _ h1,
      ih h2, toImage]

theorem read_images_binary_encode (l : List ImageContent)
    (h : ∀ c ∈ l, ∀ ch ∈ c.name.data, ch ≠ Char.ofNat 0) :
    read_images_binary (encode_images_binary l) =
      some (l.map fun c => (c.id, toImage c)) := by
  simp [read_images_binary, encode_images_binary, takeInt, Int.toNat_natCast,
    parseImagesBin_encode l h]

theorem every3rd_triple {α β : Type} (f g h : β → α) :
    ∀ l : List β, every3rd (l.flatMap fun b => [f b, g b, h b]) = l.map f
  | [] => rfl
  | b :: l => by
    simp only [List.flatMap_cons, List.cons_append, List.nil_append, List.map_cons]
    rw [every3rd]
    rw [every3rd_triple f g h l]

theorem every3rd_triple_drop1 {α β : Type} (f g h : β → α) :
    ∀ l : List β,
      every3rd ((l.flatMap fun b => [f b, g b, h b]).drop 1) = l.map g
  | [] => rfl
  | [b] => rfl
  | b :: b' :: l => by
    have ih := every3rd_triple_drop1 f g h (b' :: l)
    simp only [List.flatMap_cons, List.cons_append, List.nil_append,
      List.drop_succ_cons, List.drop_zero, List.map_cons] at ih ⊢
    rw [every3rd]
    rw [ih]

theorem every3rd_triple_drop2 {α β : Type} (f g h : β → α) :
    ∀ l : List β,
      every3rd ((l.flatMap fun b => [f b, g b, h b]).drop 2) = l.map h
  | [] => rfl
  | [b] => rfl
  | b :: b' :: l => by
    have ih := every3rd_triple_drop2 f g h (b' :: l)
    simp only [List.flatMap_cons, List.cons_append, List.nil_append,
      List.drop_succ_cons, List.drop_zero, List.map_cons] at ih ⊢
    rw [every3rd]
    rw [ih]

theorem mapOption_flt {α : Type} (l : List α) (f : α → ℝ) :
    mapOption asFloat (l.map fun a => Tok.flt (f a)) = some (l.map f) := by
  induction l with
  | nil => rfl
  | cons a l ih => simp [mapOption, asFloat, ih]

theorem mapOption_int {α : Type} (l : List α) (f : α → ℤ) :
    mapOption asInt (l.map fun a => Tok.int (f a)) = some (l.map f) := by
  induction l with
  | nil => rfl
  | cons a l ih => simp [mapOption, asInt, ih]

theorem parseObsToks_encode (obs : List (ℝ × ℝ × ℤ)) :
    parseObsToks (obsToks obs) =
      some (obs.map fun o => (o.1, o.2.1), obs.map fun o => o.2.2) := by
  have h0 := every3rd_triple (fun o : ℝ × ℝ × ℤ => Tok.flt o.1)
    (fun o => Tok.flt o.2.1) (fun o => Tok.int o.2.2) obs
  have h1 := every3rd_triple_drop1 (fun o : ℝ × ℝ × ℤ => Tok.flt o.1)
    (fun o => Tok.flt o.2.1) (fun o => Tok.int o.2.2) obs
  have h2 := every3rd_triple_drop2 (fun o : ℝ × ℝ × ℤ => Tok.flt o.1)
    (fun o => Tok.flt o.2.1) (fun o => Tok.int o.2.2) obs
  simp only [obsToks, parseObsToks, h0, h1, h2]
  simp [mapOption_flt, mapOption_int, List.zip_map']

theorem parseHeaderToks_encode (c : ImageContent) :
    parseHeaderToks (headerToks c) =
      some (c.id, ⟨c.qw, c.qx, c.qy, c.qz⟩, (c.tx, c.ty, c.tz),
        c.camera_id, c.name) := by
  simp [parseHeaderToks, headerToks, asInt, asFloat, asStr]

theorem read_images_text_encode (l : List ImageContent) :
    read_images_text (encode_images_text l) =
      some (l.map fun c => (c.id, toImage c)) := by
  induction l with
  | nil => rfl
  | cons c l ih =>
    simp only [encode_images_text] at ih ⊢
    by_cases hobs : c.obs.isEmpty
    · have hobs' : c.obs = [] := List.isEmpty_iff.mp hobs
      simp [List.flatMap_cons, encodeImageText, hobs,
        read_images_text, parseHeaderToks_encode, parseObsToks, mapOption,
        every3rd, ih, mkImage, toImage, hobs']
    · simp [List.flatMap_cons, encodeImageText, hobs,
        read_images_text, parseHeaderToks_encode, parseObsToks_encode,
        ih, mkImage, toImage]

/-- C7: for equivalent content — the same image records encoded once in
the binary layout and once in the text layout — `read_images_binary` and
`read_images_text` yield identical in-memory `Image` records (same id,
quaternion, translation, camera id, name, 2D observation coordinates and
3D point identifiers), keyed by the same image ids. -/
theorem read_images_binary_text_equiv (l : List ImageContent)
    (h : ∀ c ∈ l, WFImageContent c) :
    read_images_binary (encode_images_binary l) =
      read_images_text (encode_images_text l) ∧
    read_images_binary (encode_images_binary l) =
      some (l.map fun c => (c.id, toImage c)) := by
  have hb := read_images_binary_encode l fun c hc ch hch => ((h c hc).2 ch hch).1
  exact ⟨hb.trans (read_images_text_encode l).symm, hb⟩

/-- Witness for `read_images_binary_text_equiv` on a single record. -/
theorem read_images_binary_text_equiv_witness :
    read_images_binary (encode_images_binary [modelContent]) =
      read_images_text (encode_images_text [modelContent]) ∧
    read_images_binary (encode_images_binary [modelContent]) =
      some [(7, toImage modelContent)] :=
  read_images_binary_text_equiv [modelContent] (by
    intro c hc
    rw [List.mem_singleton] at hc
    subst hc
    decide)

end PoSDK
